import Mathlib

/-!
# Verification of the terrier `TimeConvertor` (src/include/util/time_util.h)

Shallow embedding of the date/timestamp conversion engine:

* `PostgresDate2J` / `PostgresJ2Date` — the PostgreSQL Julian-day codec, embedded
  faithfully with C++ machine semantics (`int32_t` arithmetic modelled as exact `Int`,
  `uint32_t` arithmetic as `Nat` with explicit `% 2^32` at every step that can wrap,
  truncating signed division as `Int.tdiv`).
* `encS` / `decS` — the same algorithms over plain `Nat` in shifted-year coordinates
  (`ys = year + 4800`), used as the proof layer; bridge lemmas connect them to the
  faithful versions on the supported domain.
* timestamp codec, text parser and formatter follow further down.

The external calendar library (`date/date.h`) is not part of the repository source;
where its behaviour is needed it is modelled from the spec (see the `Modelled from
the spec:` doc comments).
-/

set_option maxHeartbeats 1000000
set_option maxRecDepth 40000

/-! ## Proof-layer codec in shifted-year coordinates -/

/-- `PostgresJ2Date`'s arithmetic over plain `Nat`, returning the *shifted* civil year
`ys = year + 4800` together with month and day.  Line-for-line image of the source's
`j2date` body (which never wraps for the day counts considered in the bridge lemmas). -/
def decS (j : Nat) : Nat × Nat × Nat :=
  let julian := j + 32044
  let quad := julian / 146097
  let extra := (julian - quad * 146097) * 4 + 3
  let julian2 := julian + 60 + quad * 3 + extra / 146097
  let quad2 := julian2 / 1461
  let julian3 := julian2 - quad2 * 1461
  let y := julian3 * 4 / 1461
  let julian4 := (if y ≠ 0 then (julian3 + 305) % 365 else (julian3 + 306) % 366) + 123
  let ys := y + quad2 * 4
  let quad3 := julian4 * 2141 / 65536
  (ys, (quad3 + 10) % 12 + 1, julian4 - 7834 * quad3 / 256)

/-- `PostgresDate2J`'s arithmetic over plain `Nat` in shifted-year coordinates:
`encS (year + 4800) month day` equals the source's `date2j(year, month, day)`
on the supported domain (bridge lemma below). -/
def encS (ys m d : Nat) : Nat :=
  let Y := if m > 2 then ys else ys - 1
  let M := if m > 2 then m + 1 else m + 13
  365 * Y + Y / 4 + Y / 100 / 4 + 7834 * M / 256 + d - (Y / 100 + 32167)

/-- Day number of logical (March-based) year `Y` and day-of-logical-year `D`:
the Julian day shifted by 32044. -/
def NYD (Y D : Nat) : Nat := 365 * Y + Y / 4 - Y / 100 + Y / 400 + D

/-- Valid day-of-logical-year: `D = 365` (Feb 29) exists only when civil year `Y+1`
is a Gregorian leap year. -/
def ValidD (Y D : Nat) : Prop :=
  D ≤ 364 ∨ (D = 365 ∧ (Y + 1) % 4 = 0 ∧ ((Y + 1) % 100 ≠ 0 ∨ (Y + 1) % 400 = 0))

/-- Month extracted by the decoder from a day-of-logical-year `D` (via `julian4 = D + 123`). -/
def mOf (D : Nat) : Nat := ((D + 123) * 2141 / 65536 + 10) % 12 + 1

/-- Day-of-month extracted by the decoder from a day-of-logical-year `D`. -/
def dOf (D : Nat) : Nat := D + 123 - 7834 * ((D + 123) * 2141 / 65536) / 256

/-- Day-of-logical-year of a civil month/day pair, through the `7834/256` scaled
cumulative-month-offset table used by the encoder. -/
def DD (m d : Nat) : Nat := 7834 * (if 2 < m then m + 1 else m + 13) / 256 + d - 123

/-- Gregorian month length, shifted-year coordinates (`ys = year + 4800`; the leap rule
is invariant under the shift because `400 ∣ 4800`). -/
def dimS (ys m : Nat) : Nat :=
  if m = 2 then (if ys % 4 = 0 ∧ ys % 100 ≠ 0 ∨ ys % 400 = 0 then 29 else 28)
  else if m = 4 ∨ m = 6 ∨ m = 9 ∨ m = 11 then 30 else 31

/-- Maximal month length, used to state the finite month-table facts on valid dates only. -/
def dimMax (m : Nat) : Nat :=
  if m = 2 then 29 else if m = 4 ∨ m = 6 ∨ m = 9 ∨ m = 11 then 30 else 31

theorem eC (b D : Nat) (hb : b ≤ 399)
    (hD : D ≤ 364 ∨ (D = 365 ∧ (b + 1) % 4 = 0 ∧ ((b + 1) % 100 ≠ 0 ∨ b = 399))) :
    (4 * (365 * b + b / 4 - b / 100 + D) + 3) / 146097 = b / 100 := by
  have hc : b / 100 = 0 ∨ b / 100 = 1 ∨ b / 100 = 2 ∨ b / 100 = 3 := by omega
  rcases hD with hD | ⟨hD, h4, h100⟩
  · rcases hc with hc | hc | hc | hc <;> omega
  · rcases h100 with h100 | h100
    · have hu : b % 100 ≤ 98 := by omega
      rcases hc with hc | hc | hc | hc <;> omega
    · rcases hc with hc | hc | hc | hc <;> omega

theorem step1 (Y D : Nat) (hY : Y ≤ 5879698) (hD : D ≤ 365) :
    NYD Y D / 146097 = Y / 400 := by
  unfold NYD; omega

theorem step2 (Y D : Nat) (hY : Y ≤ 5879698) (hD : ValidD Y D) :
    ((NYD Y D - Y / 400 * 146097) * 4 + 3) / 146097 = Y % 400 / 100 := by
  have hx : NYD Y D - Y / 400 * 146097 =
      365 * (Y % 400) + (Y % 400) / 4 - (Y % 400) / 100 + D := by
    unfold NYD; omega
  rw [hx, Nat.mul_comm]
  exact eC (Y % 400) D (by omega) (by unfold ValidD at hD; omega)

theorem step3 (Y D : Nat) (hY : Y ≤ 5879698) (hD : D ≤ 365) :
    NYD Y D + 60 + Y / 400 * 3 + Y % 400 / 100 =
      1461 * (Y / 4) + (365 * (Y % 4) + D + 60) := by
  unfold NYD; omega

theorem step4c (Y D : Nat) (h3 : Y % 4 = 3) (h306 : 306 ≤ D) (hD : D ≤ 365) :
    (1461 * (Y / 4) + (365 * (Y % 4) + D + 60)) / 1461 = Y / 4 + 1 := by
  omega

theorem step5c (Y D : Nat) (h3 : Y % 4 = 3) (h306 : 306 ≤ D) (hD : D ≤ 365) :
    1461 * (Y / 4) + (365 * (Y % 4) + D + 60) - (Y / 4 + 1) * 1461 = D - 306 := by
  omega

theorem step4n (Y D : Nat) (hD : D ≤ 365) (hnc : ¬(Y % 4 = 3 ∧ 306 ≤ D)) :
    (1461 * (Y / 4) + (365 * (Y % 4) + D + 60)) / 1461 = Y / 4 := by
  omega

theorem step5n (Y D : Nat) (hD : D ≤ 365) (hnc : ¬(Y % 4 = 3 ∧ 306 ≤ D)) :
    1461 * (Y / 4) + (365 * (Y % 4) + D + 60) - Y / 4 * 1461 =
      365 * (Y % 4) + D + 60 := by
  omega

/-- The decoding cascade recovers the logical coordinates: on valid inputs, `decS`
applied to `NYD Y D - 32044` yields the civil year (shifted), `mOf D` and `dOf D`. -/
theorem cascade (Y D : Nat) (hY : Y ≤ 5879698) (hN : 32044 ≤ NYD Y D) (hD : ValidD Y D) :
    decS (NYD Y D - 32044) =
      (Y + (if 306 ≤ D then 1 else 0), mOf D, dOf D) := by
  have hDle : D ≤ 365 := by unfold ValidD at hD; omega
  have hj : NYD Y D - 32044 + 32044 = NYD Y D := by omega
  simp only [decS, hj]
  rw [step1 Y D hY hDle, step2 Y D hY hD, step3 Y D hY hDle]
  by_cases hs3 : Y % 4 = 3 ∧ 306 ≤ D
  · rw [if_pos hs3.2]
    rw [step4c Y D hs3.1 hs3.2 hDle, step5c Y D hs3.1 hs3.2 hDle]
    have h6 : (D - 306) * 4 / 1461 = 0 := by omega
    rw [h6]
    rw [if_neg (by omega : ¬((0:Nat) ≠ 0))]
    have h7 : (D - 306 + 306) % 366 = D := by omega
    rw [h7]
    have h8 : (0 : Nat) + (Y / 4 + 1) * 4 = Y + 1 := by omega
    rw [h8]
    simp only [mOf, dOf]
  · rw [step4n Y D hDle hs3, step5n Y D hDle hs3]
    by_cases h306 : 306 ≤ D
    · rw [if_pos h306]
      have h6 : (365 * (Y % 4) + D + 60) * 4 / 1461 = Y % 4 + 1 := by omega
      rw [h6]
      rw [if_pos (by omega : (Y % 4 + 1) ≠ 0)]
      have h7 : (365 * (Y % 4) + D + 60 + 305) % 365 = D := by
        have hD364 : D ≤ 364 := by unfold ValidD at hD; omega
        omega
      rw [h7]
      have h8 : Y % 4 + 1 + Y / 4 * 4 = Y + 1 := by omega
      rw [h8]
      simp only [mOf, dOf]
    · rw [if_neg h306]
      by_cases hs0 : Y % 4 = 0
      · have h6 : (365 * (Y % 4) + D + 60) * 4 / 1461 = 0 := by omega
        rw [h6]
        rw [if_neg (by omega : ¬((0:Nat) ≠ 0))]
        have h7 : (365 * (Y % 4) + D + 60 + 306) % 366 = D := by omega
        rw [h7]
        have h8 : (0 : Nat) + Y / 4 * 4 = Y + 0 := by omega
        rw [h8]
        simp only [mOf, dOf]
      · have h6 : (365 * (Y % 4) + D + 60) * 4 / 1461 = Y % 4 := by omega
        rw [h6]
        rw [if_pos (by omega : (Y % 4) ≠ 0)]
        have h7 : (365 * (Y % 4) + D + 60 + 305) % 365 = D := by omega
        rw [h7]
        have h8 : Y % 4 + Y / 4 * 4 = Y + 0 := by omega
        rw [h8]
        simp only [mOf, dOf]

theorem tableT1 : ∀ D < 366, 1 ≤ mOf D ∧ mOf D ≤ 12 ∧ 1 ≤ dOf D ∧ dOf D ≤ 31 ∧
    ((306 ≤ D) ↔ mOf D ≤ 2) := by decide

theorem tableT4 : ∀ D < 366,
    7834 * (if 2 < mOf D then mOf D + 1 else mOf D + 13) / 256 + dOf D = D + 123 := by decide

theorem tableT5 : ∀ m < 12, ∀ d < 31, dimMax (m + 1) < d + 1 ∨
    (mOf (DD (m + 1) (d + 1)) = m + 1 ∧ dOf (DD (m + 1) (d + 1)) = d + 1 ∧
     (2 < m + 1 ↔ DD (m + 1) (d + 1) ≤ 305) ∧
     ((m + 1 = 2 ∧ 29 ≤ d + 1) ∨ DD (m + 1) (d + 1) ≤ 364) ∧ DD (m + 1) (d + 1) ≤ 365 ∧
     (2 < m + 1 ∨ 306 ≤ DD (m + 1) (d + 1))) := by decide

theorem encUnfoldPos (ys m d : Nat) (hm : 2 < m) (hm2 : m ≤ 12) (hd : 1 ≤ d) :
    encS ys m d = NYD ys (DD m d) - 32044 := by
  simp only [encS, NYD, DD, if_pos hm]
  omega

theorem encUnfoldNeg (ys m d : Nat) (hys : 1 ≤ ys) (hm : 1 ≤ m) (hm2 : ¬(2 < m)) (hd : 1 ≤ d) :
    encS ys m d = NYD (ys - 1) (DD m d) - 32044 := by
  simp only [encS, NYD, DD, if_neg hm2]
  omega

theorem dimS_le (ys m : Nat) : dimS ys m ≤ dimMax m := by
  unfold dimS dimMax
  split_ifs <;> omega

theorem dimMax_le (m : Nat) : dimMax m ≤ 31 := by
  unfold dimMax
  split_ifs <;> omega

theorem NYD_lb (w D : Nat) (hw : 87 ≤ w) (hD : 268 ≤ D ∨ 88 ≤ w) : 32044 ≤ NYD w D := by
  unfold NYD
  by_cases hw87 : w = 87
  · subst hw87
    omega
  · omega

/-- Direction 1 in shifted coordinates: decode after encode is the identity on
valid civil dates. -/
theorem dir1S (ys m d : Nat) (h1 : 88 ≤ ys ∨ (ys = 87 ∧ 2 < m ∧ 268 ≤ DD m d))
    (h2 : ys ≤ 5879697) (hm : 1 ≤ m) (hm2 : m ≤ 12) (hd : 1 ≤ d) (hd2 : d ≤ dimS ys m) :
    decS (encS ys m d) = (ys, m, d) := by
  have hdmax : d ≤ dimMax m := le_trans hd2 (dimS_le ys m)
  have hdmax31 : dimMax m ≤ 31 := dimMax_le m
  have ht5 := tableT5 (m - 1) (by omega) (d - 1) (by omega)
  rw [show m - 1 + 1 = m by omega, show d - 1 + 1 = d by omega] at ht5
  rcases ht5 with ht5 | ⟨hmOf, hdOf, hle305, hle364, hle365, h306⟩
  · omega
  by_cases hm3 : 2 < m
  · -- March..December: logical year = civil year
    rw [encUnfoldPos ys m d hm3 hm2 hd]
    have hVD : ValidD ys (DD m d) := by
      unfold ValidD
      rcases hle364 with ⟨hmf, _⟩ | h
      · omega
      · left; exact h
    have hN : 32044 ≤ NYD ys (DD m d) := NYD_lb ys (DD m d) (by omega) (by omega)
    rw [cascade ys (DD m d) (by omega) hN hVD]
    have : ¬(306 ≤ DD m d) := by omega
    rw [if_neg this, hmOf, hdOf, Nat.add_zero]
  · -- January..February: logical year = civil year - 1
    rw [encUnfoldNeg ys m d (by omega) hm (by omega) hd]
    have hD306 : 306 ≤ DD m d := by omega
    have hVD : ValidD (ys - 1) (DD m d) := by
      rcases hle364 with ⟨hmf, hdf⟩ | h
      · -- m = 2, d ≥ 29: the date is Feb 29 of a leap civil year ys
        subst hmf
        have hL : ys % 4 = 0 ∧ ys % 100 ≠ 0 ∨ ys % 400 = 0 := by
          by_contra hc
          have h28 : dimS ys 2 = 28 := by
            unfold dimS
            rw [if_pos rfl, if_neg hc]
          omega
        have hd29 : d = 29 := by
          have h29 : dimS ys 2 = 29 := by
            unfold dimS
            rw [if_pos rfl, if_pos hL]
          omega
        subst hd29
        unfold ValidD
        right
        refine ⟨rfl, ?_, ?_⟩
        · rcases hL with ⟨ha, _⟩ | ha <;> omega
        · rcases hL with ⟨_, hb⟩ | hb
          · left; omega
          · right; omega
      · exact Or.inl h
    have hN : 32044 ≤ NYD (ys - 1) (DD m d) :=
      NYD_lb (ys - 1) (DD m d) (by omega) (Or.inl (by omega))
    rw [cascade (ys - 1) (DD m d) (by omega) hN hVD]
    rw [if_pos hD306, hmOf, hdOf]
    have : ys - 1 + 1 = ys := by omega
    rw [this]

theorem surjStep (n : Nat) (h : 32044 ≤ n) :
    (∃ Y D, ValidD Y D ∧ NYD Y D = n) → (∃ Y D, ValidD Y D ∧ NYD Y D = n + 1) := by
  rintro ⟨Y, D, hV, hN⟩
  by_cases hD : D < 364
  · exact ⟨Y, D + 1, Or.inl (by omega), by unfold NYD at *; omega⟩
  by_cases h4 : (Y + 1) % 4 = 0
  · by_cases h100 : (Y + 1) % 100 = 0
    · by_cases h400 : (Y + 1) % 400 = 0
      · by_cases hD365 : D = 365
        · exact ⟨Y + 1, 0, Or.inl (by omega), by unfold NYD at *; unfold ValidD at hV; omega⟩
        · exact ⟨Y, 365, Or.inr ⟨rfl, h4, Or.inr h400⟩,
            by unfold NYD at *; unfold ValidD at hV; omega⟩
      · have hD364 : D = 364 := by unfold ValidD at hV; omega
        exact ⟨Y + 1, 0, Or.inl (by omega), by unfold NYD at *; omega⟩
    · by_cases hD365 : D = 365
      · exact ⟨Y + 1, 0, Or.inl (by omega), by unfold NYD at *; unfold ValidD at hV; omega⟩
      · exact ⟨Y, 365, Or.inr ⟨rfl, h4, Or.inl h100⟩,
          by unfold NYD at *; unfold ValidD at hV; omega⟩
  · have hD364 : D = 364 := by unfold ValidD at hV; omega
    exact ⟨Y + 1, 0, Or.inl (by omega), by unfold NYD at *; omega⟩

/-- Every day number from the epoch onward is realized by a valid logical date. -/
theorem surj (n : Nat) (h : 32044 ≤ n) : ∃ Y D, ValidD Y D ∧ NYD Y D = n := by
  induction n, h using Nat.le_induction with
  | base => exact ⟨87, 268, Or.inl (by omega), by unfold NYD; omega⟩
  | succ n hn ih => exact surjStep n hn ih

/-- Direction 2 in shifted coordinates: encode after decode is the identity on
the encoder's range. -/
theorem dir2S (j : Nat) (hj : j ≤ 2147483493) :
    encS (decS j).1 (decS j).2.1 (decS j).2.2 = j := by
  obtain ⟨Y, D, hV, hN⟩ := surj (j + 32044) (by omega)
  have hDle : D ≤ 365 := by unfold ValidD at hV; omega
  have hY : Y ≤ 5879698 := by unfold NYD at hN; omega
  have hjj : j = NYD Y D - 32044 := by omega
  rw [hjj, cascade Y D hY (by omega) hV]
  have hT1 := tableT1 D (by omega)
  have hT4 := tableT4 D (by omega)
  by_cases h306 : 306 ≤ D
  · rw [if_pos h306]
    have hm2 : mOf D ≤ 2 := hT1.2.2.2.2.mp h306
    simp only
    rw [encUnfoldNeg (Y + 1) (mOf D) (dOf D) (by omega) (by omega) (by omega) (by omega)]
    have hDD : DD (mOf D) (dOf D) = D := by
      unfold DD
      rw [if_neg (by omega : ¬(2 < mOf D))]
      rw [if_neg (by omega : ¬(2 < mOf D))] at hT4
      omega
    rw [Nat.add_sub_cancel, hDD]
  · rw [if_neg h306]
    have hm2 : 2 < mOf D := by
      have := hT1.2.2.2.2
      omega
    simp only
    rw [Nat.add_zero, encUnfoldPos Y (mOf D) (dOf D) hm2 (by omega) (by omega)]
    have hDD : DD (mOf D) (dOf D) = D := by
      unfold DD
      rw [if_pos hm2]
      rw [if_pos hm2] at hT4
      omega
    rw [hDD]

/-! ## Faithful machine-level codec -/

/-- C++ conversion of a signed integer value to `uint32_t` (reduction mod `2^32`). -/
def toU32 (z : Int) : Nat := (z % 4294967296).toNat

/-- `TimeConvertor::PostgresDate2J` (time_util.h lines 136-157), embedded with C++
machine semantics: `month`/`day` are the `uint32_t` argument values (< 2^32), `year`
the `int32_t` value; `uint32_t` arithmetic wraps mod `2^32` (`int32_t` overflow, which
would be undefined behaviour in C++, is modelled as exact integer arithmetic); C++
signed division truncates toward zero, i.e. `Int.tdiv`. -/
def PostgresDate2J (year : Int) (month day : Nat) : Nat :=
  let month2 := (if 2 < month then month + 1 else month + 13) % 4294967296
  let year2 := if 2 < month then year + 4800 else year + 4799
  let century := toU32 (Int.tdiv year2 100)
  let julian0 := toU32 (year2 * 365 - 32167)
  let julian1 := (julian0 + toU32 (Int.tdiv year2 4) + (4294967296 - century) + century / 4)
      % 4294967296
  (julian1 + 7834 * month2 % 4294967296 / 256 + day) % 4294967296

/-- `TimeConvertor::PostgresJ2Date` (time_util.h lines 160-188), embedded with C++
`uint32_t` semantics: explicit `% 2^32` where a step can wrap; the two
`julian - quad * c` subtractions never underflow (`quad = julian / c`), so `Nat`
subtraction is exact there; the final day subtraction is written in the wrap-safe
`(a + 2^32 - b) % 2^32` form of `uint32_t` subtraction.  The `date::year_month_day`
result type is external to the repository and is modelled from the spec as the plain
`CalendarDate` triple (year: signed integer, month, day). -/
def PostgresJ2Date (julian_days : Nat) : Int × Nat × Nat :=
  let julian := (julian_days + 32044) % 4294967296
  let quad := julian / 146097
  let extra := (julian - quad * 146097) * 4 + 3
  let julian2 := (julian + 60 + quad * 3 + extra / 146097) % 4294967296
  let quad2 := julian2 / 1461
  let julian3 := julian2 - quad2 * 1461
  let y := julian3 * 4 / 1461
  let julian4 := (if y ≠ 0 then (julian3 + 305) % 365 else (julian3 + 306) % 366) + 123
  let y2 := y + quad2 * 4
  let quad3 := julian4 * 2141 / 65536
  ((y2 : Int) - 4800, (quad3 + 10) % 12 + 1,
    (julian4 + 4294967296 - 7834 * quad3 / 256) % 4294967296)

theorem dayNoUnderflow : ∀ x < 489, 7834 * (x * 2141 / 65536) / 256 ≤ x := by decide

theorem daySubEq (v : Nat) (hv : v < 489) :
    (v + 4294967296 - 7834 * (v * 2141 / 65536) / 256) % 4294967296 =
      v - 7834 * (v * 2141 / 65536) / 256 := by
  have := dayNoUnderflow v hv
  omega

/-- On the encoder's range the faithful decoder computes exactly the shifted-year
`Nat`-level decoder (no `uint32_t` wrap occurs). -/
theorem bridgeDec (j : Nat) (hj : j ≤ 2147483493) :
    PostgresJ2Date j = (((decS j).1 : Int) - 4800, (decS j).2.1, (decS j).2.2) := by
  simp only [PostgresJ2Date, decS]
  have h1 : (j + 32044) % 4294967296 = j + 32044 := by omega
  rw [h1]
  have h2 : ∀ q e : Nat, q ≤ 14700 → e ≤ 3 →
      (j + 32044 + 60 + q * 3 + e) % 4294967296 = j + 32044 + 60 + q * 3 + e := by
    intro q e hq he
    omega
  rw [h2 ((j + 32044) / 146097)
      (((j + 32044 - (j + 32044) / 146097 * 146097) * 4 + 3) / 146097)
      (by omega) (by omega)]
  refine Prod.ext rfl (Prod.ext rfl ?_)
  simp only
  split
  · exact daySubEq _ (by omega)
  · exact daySubEq _ (by omega)

/-- Arithmetic core of the encoder bridge: for shifted logical year `w` and month
offset `mt = 7834 * M / 256`, the wrapped `uint32_t` computation equals the
truncated-subtraction `Nat` form, as soon as the final value is nonnegative. -/
theorem bridgeEncCore (w mt d : Nat) (hw : 87 ≤ w) (hw2 : w ≤ 5879697)
    (hmt : 122 ≤ mt) (hmt2 : mt ≤ 459) (hd : 1 ≤ d) (hd2 : d ≤ 31)
    (hpos : 32167 ≤ 365 * w + w / 4 + w / 100 / 4 + mt + d) :
    (((((w : Int) * 365 - 32167) % 4294967296).toNat + w / 4 + (4294967296 - w / 100)
        + w / 100 / 4) % 4294967296 + mt + d) % 4294967296 =
      365 * w + w / 4 + w / 100 / 4 + mt + d - (w / 100 + 32167) := by
  rcases (by omega : w = 87 ∨ w = 88 ∨ 89 ≤ w) with rfl | rfl | h89
  · omega
  · omega
  · rw [show (((w : Int) * 365 - 32167) % 4294967296).toNat = 365 * w - 32167 by omega]
    omega

/-- On the supported domain the faithful encoder computes exactly the shifted-year
`Nat`-level encoder.  The extra `y = -4713` hypothesis reflects the genuine lower edge
of the algorithm: for earlier dates the `uint32_t` computation wraps while the `Nat`
form truncates. -/
theorem bridgeEnc (y : Int) (m d : Nat) (hy : -4713 ≤ y) (hy2 : y ≤ 5874897)
    (hm : 1 ≤ m) (hm2 : m ≤ 12) (hd : 1 ≤ d) (hd2 : d ≤ 31)
    (hEdge : y = -4713 → 2 < m ∧ 268 ≤ DD m d) :
    PostgresDate2J y m d = encS (y + 4800).toNat m d := by
  obtain ⟨ys, hys⟩ : ∃ ys : Nat, y + 4800 = (ys : Int) := ⟨(y + 4800).toNat, by omega⟩
  have htn : (y + 4800).toNat = ys := by omega
  rw [htn]
  have hysb : ys ≤ 5879697 := by omega
  have hys87 : 87 ≤ ys := by omega
  simp only [PostgresDate2J, encS, toU32]
  by_cases hm3 : 2 < m
  · simp only [if_pos hm3]
    have e4 : Int.tdiv (ys : Int) 4 = ((ys / 4 : Nat) : Int) := rfl
    have e100 : Int.tdiv (ys : Int) 100 = ((ys / 100 : Nat) : Int) := rfl
    rw [hys, e4, e100]
    rw [show (((ys / 4 : Nat) : Int) % 4294967296).toNat = ys / 4 by omega]
    rw [show (((ys / 100 : Nat) : Int) % 4294967296).toNat = ys / 100 by omega]
    rw [show (m + 1) % 4294967296 = m + 1 by omega]
    rw [show 7834 * (m + 1) % 4294967296 = 7834 * (m + 1) by omega]
    have hpos : 32167 ≤ 365 * ys + ys / 4 + ys / 100 / 4 + 7834 * (m + 1) / 256 + d := by
      rcases (by omega : ys = 87 ∨ 88 ≤ ys) with rfl | h88
      · have hyv : y = -4713 := by omega
        have hDDe := (hEdge hyv).2
        unfold DD at hDDe
        rw [if_pos hm3] at hDDe
        omega
      · omega
    exact bridgeEncCore ys (7834 * (m + 1) / 256) d hys87 hysb (by omega) (by omega)
      hd hd2 hpos
  · simp only [if_neg hm3]
    obtain ⟨z, rfl⟩ : ∃ z, ys = z + 1 := ⟨ys - 1, by omega⟩
    have hz87 : 87 ≤ z := by
      by_cases hyv : y = -4713
      · exact absurd (hEdge hyv).1 hm3
      · omega
    have hys1 : y + 4799 = ((z : Nat) : Int) := by omega
    have e4' : Int.tdiv ((z : Nat) : Int) 4 = ((z / 4 : Nat) : Int) := rfl
    have e100' : Int.tdiv ((z : Nat) : Int) 100 = ((z / 100 : Nat) : Int) := rfl
    rw [hys1, e4', e100']
    simp only [Nat.add_sub_cancel]
    rw [show (((z / 4 : Nat) : Int) % 4294967296).toNat = z / 4 by omega]
    rw [show (((z / 100 : Nat) : Int) % 4294967296).toNat = z / 100 by omega]
    rw [show (m + 13) % 4294967296 = m + 13 by omega]
    rw [show 7834 * (m + 13) % 4294967296 = 7834 * (m + 13) by omega]
    exact bridgeEncCore z (7834 * (m + 13) / 256) d hz87 (by omega) (by omega) (by omega)
      hd hd2 (by omega)

/-! ## The supported calendar domain and claim C1 -/

/-- Gregorian month length for a civil year (proleptic Gregorian, astronomical year
numbering as used by the algorithm). -/
def daysInMonth (y : Int) (m : Nat) : Nat :=
  if m = 2 then (if y % 4 = 0 ∧ y % 100 ≠ 0 ∨ y % 400 = 0 then 29 else 28)
  else if m = 4 ∨ m = 6 ∨ m = 9 ∨ m = 11 then 30 else 31

theorem daysInMonth_eq_dimS (y : Int) (ys : Nat) (h : y + 4800 = (ys : Int)) (m : Nat) :
    daysInMonth y m = dimS ys m := by
  unfold daysInMonth dimS
  have hiff : (y % 4 = 0 ∧ y % 100 ≠ 0 ∨ y % 400 = 0) ↔
      (ys % 4 = 0 ∧ ys % 100 ≠ 0 ∨ ys % 400 = 0) := by omega
  by_cases hm : m = 2
  · rw [if_pos hm, if_pos hm, if_congr hiff rfl rfl]
  · rw [if_neg hm, if_neg hm]

/-- The supported domain of the Julian day codec: valid proleptic-Gregorian dates from
4713 BC November 24 (Julian day 0) to 5874897 AD December 31 — the range of the
reference PostgreSQL implementation. -/
def ValidDate (y : Int) (m d : Nat) : Prop :=
  -4713 ≤ y ∧ y ≤ 5874897 ∧ 1 ≤ m ∧ m ≤ 12 ∧ 1 ≤ d ∧ d ≤ daysInMonth y m ∧
  (y = -4713 → m = 12 ∨ (m = 11 ∧ 24 ≤ d))

/-- Upper bound of the shifted encoder on the supported domain. -/
theorem encS_ub (ys m d : Nat) (h2 : ys ≤ 5879697) (hm2 : m ≤ 12) (hd2 : d ≤ 31) :
    encS ys m d ≤ 2147483493 := by
  simp only [encS]
  split_ifs
  · omega
  · cases ys with
    | zero => omega
    | succ z =>
      simp only [Nat.succ_sub_one]
      omega

/-- Bounds of the decoded components on the encoder's range. -/
theorem decS_dom (j : Nat) (hj : j ≤ 2147483493) :
    87 ≤ (decS j).1 ∧ (decS j).1 ≤ 5879697 ∧ 1 ≤ (decS j).2.1 ∧ (decS j).2.1 ≤ 12 ∧
    1 ≤ (decS j).2.2 ∧ (decS j).2.2 ≤ 31 := by
  obtain ⟨Y, D, hV, hN⟩ := surj (j + 32044) (by omega)
  have hDle : D ≤ 365 := by unfold ValidD at hV; omega
  have hY : Y ≤ 5879698 := by unfold NYD at hN; omega
  have hY87 : 87 ≤ Y := by unfold NYD at hN; omega
  have hjj : j = NYD Y D - 32044 := by omega
  rw [hjj, cascade Y D hY (by omega) hV]
  simp only
  have hT1 := tableT1 D (by omega)
  have hYub : (306 ≤ D → Y ≤ 5879696) ∧ Y ≤ 5879697 := by
    constructor
    · intro h306
      by_contra hc
      have hcc : Y = 5879697 ∨ Y = 5879698 := by omega
      rcases hcc with rfl | rfl <;> (unfold NYD at hN; omega)
    · by_contra hc
      have hcc : Y = 5879698 := by omega
      subst hcc
      unfold NYD at hN
      omega
  refine ⟨by split <;> omega, by split <;> omega, by omega, by omega, by omega, by omega⟩

/-- Decode-then-encode identity on the faithful embedding, for every encoder-range
day count: shared arithmetic core of the round trip. -/
theorem decodeEncode (j : Nat) (hj : j ≤ 2147483493) :
    PostgresDate2J (((decS j).1 : Int) - 4800) (decS j).2.1 (decS j).2.2 = j := by
  have hdom := decS_dom j hj
  have hEdge' : ((decS j).1 : Int) - 4800 = -4713 → 2 < (decS j).2.1 ∧
      268 ≤ DD (decS j).2.1 (decS j).2.2 := by
    intro hy87
    have h87 : (decS j).1 = 87 := by omega
    -- year -4713 decodes only from j ≤ 37 (Nov 24 .. Dec 31); then m ∈ {11, 12}
    obtain ⟨Y, D, hV, hN⟩ := surj (j + 32044) (by omega)
    have hDle : D ≤ 365 := by unfold ValidD at hV; omega
    have hY : Y ≤ 5879698 := by unfold NYD at hN; omega
    have hjj : j = NYD Y D - 32044 := by omega
    rw [hjj, cascade Y D hY (by omega) hV] at h87 ⊢
    have hT1 := tableT1 D (by omega)
    have hT4 := tableT4 D (by omega)
    have hY87 : 87 ≤ Y := by unfold NYD at hN; omega
    have hflag : ¬(306 ≤ D) := by
      intro h306
      rw [if_pos h306] at h87
      have : Y = 86 := by omega
      subst this
      unfold NYD at hN
      omega
    rw [if_neg hflag] at h87 ⊢
    simp only [Nat.add_zero] at h87 ⊢
    subst h87
    have hm3 : 2 < mOf D := by
      have := hT1.2.2.2.2
      omega
    have hD268 : 268 ≤ D := by unfold NYD at hN; omega
    refine ⟨hm3, ?_⟩
    unfold DD
    rw [if_pos hm3]
    rw [if_pos hm3] at hT4
    omega
  rw [bridgeEnc _ _ _ (by omega) (by omega) (by omega) (by omega) (by omega) (by omega) hEdge']
  rw [show (((decS j).1 : Int) - 4800 + 4800).toNat = (decS j).1 by omega]
  exact dir2S j hj

/-- **C1**: The Julian day codec is a round trip.  For every representable
`CalendarDate` in the algorithm's supported domain (`ValidDate`),
`PostgresJ2Date (PostgresDate2J y m d)` returns the same date, and for every day
count `j` in the encoder's range `[0, PostgresDate2J 5874897 12 31]`,
`PostgresDate2J` applied to the components of `PostgresJ2Date j` returns `j`. -/
theorem julian_codec_roundtrip :
    (∀ (y : Int) (m d : Nat), ValidDate y m d →
      PostgresJ2Date (PostgresDate2J y m d) = (y, m, d)) ∧
    (∀ j : Nat, j ≤ 2147483493 →
      PostgresDate2J (PostgresJ2Date j).1 (PostgresJ2Date j).2.1 (PostgresJ2Date j).2.2 = j) := by
  constructor
  · rintro y m d ⟨hy1, hy2, hm1, hm2, hd1, hd2, hedge⟩
    obtain ⟨ys, hys⟩ : ∃ ys : Nat, y + 4800 = (ys : Int) := ⟨(y + 4800).toNat, by omega⟩
    have hdim : d ≤ dimS ys m := by
      rw [← daysInMonth_eq_dimS y ys hys]; exact hd2
    have hd31 : d ≤ 31 := le_trans hdim (le_trans (dimS_le ys m) (dimMax_le m))
    have hEdge' : y = -4713 → 2 < m ∧ 268 ≤ DD m d := by
      intro hyv
      rcases hedge hyv with h | ⟨h, hd24⟩
      · refine ⟨by omega, ?_⟩
        unfold DD; rw [if_pos (by omega : 2 < m)]; omega
      · refine ⟨by omega, ?_⟩
        unfold DD; rw [if_pos (by omega : 2 < m)]; omega
    rw [bridgeEnc y m d hy1 hy2 hm1 hm2 hd1 hd31 hEdge']
    have htn : (y + 4800).toNat = ys := by omega
    rw [htn]
    have h1 : 88 ≤ ys ∨ (ys = 87 ∧ 2 < m ∧ 268 ≤ DD m d) := by
      by_cases h88 : 88 ≤ ys
      · exact Or.inl h88
      · exact Or.inr ⟨by omega, hEdge' (by omega)⟩
    have henc : encS ys m d ≤ 2147483493 := encS_ub ys m d (by omega) hm2 hd31
    rw [bridgeDec _ henc, dir1S ys m d h1 (by omega) hm1 hm2 hd1 hdim]
    simp only
    refine Prod.ext ?_ rfl
    simp only
    omega
  · intro j hj
    rw [bridgeDec j hj]
    exact decodeEncode j hj

/-- Witness for C1 at the concrete date 2000-01-01 and day count 2451545. -/
theorem julian_codec_roundtrip_witness :
    PostgresJ2Date (PostgresDate2J 2000 1 1) = (2000, 1, 1) ∧
    PostgresDate2J (PostgresJ2Date 2451545).1 (PostgresJ2Date 2451545).2.1
      (PostgresJ2Date 2451545).2.2 = 2451545 :=
  ⟨julian_codec_roundtrip.1 2000 1 1 (by unfold ValidDate daysInMonth; norm_num),
   julian_codec_roundtrip.2 2451545 (by norm_num)⟩

/-! ## Timestamp codec (C3, C9) -/

/-- `MICROSECONDS_PER_SECOND` (time_util.h line 191). -/
def MICROSECONDS_PER_SECOND : Nat := 1000 * 1000

/-- `MICROSECONDS_PER_MINUTE` (line 192). -/
def MICROSECONDS_PER_MINUTE : Nat := 60 * MICROSECONDS_PER_SECOND

/-- `MICROSECONDS_PER_HOUR` (line 193). -/
def MICROSECONDS_PER_HOUR : Nat := 60 * MICROSECONDS_PER_MINUTE

/-- `MICROSECONDS_PER_DAY` (line 194). -/
def MICROSECONDS_PER_DAY : Nat := 24 * MICROSECONDS_PER_HOUR

/-- `TimeConvertor::TimestampFromDate` (lines 46-48): `!date * MICROSECONDS_PER_DAY`,
a `uint32_t` multiplied into `uint64_t`, hence reduction mod `2^64`. -/
def TimestampFromDate (date : Nat) : Nat :=
  date * MICROSECONDS_PER_DAY % 18446744073709551616

/-- `TimeConvertor::DateFromTimestamp` (lines 51-53):
`static_cast<uint32_t>(!timestamp / MICROSECONDS_PER_DAY)`. -/
def DateFromTimestamp (timestamp : Nat) : Nat :=
  timestamp / MICROSECONDS_PER_DAY % 4294967296

/-- `TimeConvertor::DateFromYMD` (lines 23-28): extract the components of the
`year_month_day` (modelled as a plain triple) and apply `PostgresDate2J`. -/
def DateFromYMD (year : Int) (month day : Nat) : Nat := PostgresDate2J year month day

/-- `TimeConvertor::TimestampFromHMSu` (lines 34-43): encode the date, then add the
time-of-day contributions; the chain of `uint64_t` `+=` operations equals one sum
reduced mod `2^64`. -/
def TimestampFromHMSu (year : Int) (month day : Nat) (hour minute sec usec : Nat) : Nat :=
  (TimestampFromDate (DateFromYMD year month day) + hour * MICROSECONDS_PER_HOUR
    + minute * MICROSECONDS_PER_MINUTE + sec * MICROSECONDS_PER_SECOND + usec)
    % 18446744073709551616

/-- **C9**: the narrowing cast in `DateFromTimestamp` never loses information: for
every 64-bit `MicrosecondCount` the quotient fits in 32 bits, so the result is the
exact truncating division. -/
theorem dateFromTimestamp_lossless (t : Nat) (ht : t < 18446744073709551616) :
    t / MICROSECONDS_PER_DAY < 4294967296 ∧
    DateFromTimestamp t = t / MICROSECONDS_PER_DAY := by
  unfold DateFromTimestamp MICROSECONDS_PER_DAY MICROSECONDS_PER_HOUR
    MICROSECONDS_PER_MINUTE MICROSECONDS_PER_SECOND
  omega

/-- Witness for C9 at the largest 64-bit value. -/
theorem dateFromTimestamp_lossless_witness :
    (18446744073709551615 : Nat) < 18446744073709551616 ∧
    18446744073709551615 / MICROSECONDS_PER_DAY < 4294967296 ∧
    DateFromTimestamp 18446744073709551615 = 18446744073709551615 / MICROSECONDS_PER_DAY :=
  ⟨by norm_num, dateFromTimestamp_lossless 18446744073709551615 (by norm_num)⟩

/-- Counterexample to C3 as stated: for the 32-bit day count `213503983` the
multiplication `j * MICROSECONDS_PER_DAY` wraps past `2^64`, and the round trip
returns `0` instead of `j`. -/
theorem timestamp_roundtrip_cex :
    DateFromTimestamp (TimestampFromDate 213503983) = 0 ∧ (213503983 : Nat) ≠ 0 := by
  constructor
  · decide
  · decide

/-- **C3 (amended)**: the timestamp round trip `DateFromTimestamp ∘ TimestampFromDate`
is the identity for every 32-bit day count whose microsecond product does not overflow
64 bits, i.e. `j ≤ 213503982`; beyond that the `uint64_t` product wraps. -/
theorem timestamp_roundtrip (j : Nat) (hj : j ≤ 213503982) :
    DateFromTimestamp (TimestampFromDate j) = j := by
  unfold DateFromTimestamp TimestampFromDate MICROSECONDS_PER_DAY MICROSECONDS_PER_HOUR
    MICROSECONDS_PER_MINUTE MICROSECONDS_PER_SECOND
  have h1 : j * (24 * (60 * (60 * (1000 * 1000)))) % 18446744073709551616
      = j * 86400000000 := by omega
  rw [h1]
  have h2 : j * 86400000000 / (24 * (60 * (60 * (1000 * 1000)))) = j := by omega
  rw [h2]
  omega

/-- Witness for the amended C3 at the largest non-overflowing day count. -/
theorem timestamp_roundtrip_witness :
    (213503982 : Nat) ≤ 213503982 ∧ DateFromTimestamp (TimestampFromDate 213503982) = 213503982 :=
  ⟨le_refl _, timestamp_roundtrip 213503982 (le_refl _)⟩

/-! ## Text formatter and parser

The textual grammar engine (`date::parse`, `operator<<`) lives in the external
`date/date.h` library, which is not part of this repository's source; those parts are
modelled from the spec (grammar templates `YYYY-MM-DD[ T]HH:MM:SS[.ffffff][±HHMM|Z]`,
zero-padded rendering, prefix-match stream semantics, civil-day arithmetic via the
same Gregorian bijection as the codec shifted to the Unix epoch 1970-01-01 =
Julian day 2440588).  The glue around them (grammar order, flooring, re-encoding,
remainder arithmetic — time_util.h lines 63-77, 84-115, 118-133) is embedded from the
source. -/

/-- Numeric value of a decimal digit character. -/
def digitVal (c : Char) : Option Nat :=
  if 48 ≤ c.toNat ∧ c.toNat ≤ 57 then some (c.toNat - 48) else none

/-- Two-digit zero-padded decimal rendering. -/
def pad2 (n : Nat) : List Char := [Nat.digitChar (n / 10 % 10), Nat.digitChar (n % 10)]

/-- Four-digit zero-padded decimal rendering. -/
def pad4 (n : Nat) : List Char :=
  [Nat.digitChar (n / 1000 % 10), Nat.digitChar (n / 100 % 10),
   Nat.digitChar (n / 10 % 10), Nat.digitChar (n % 10)]

/-- Six-digit zero-padded decimal rendering (microsecond fraction). -/
def pad6 (n : Nat) : List Char :=
  [Nat.digitChar (n / 100000 % 10), Nat.digitChar (n / 10000 % 10),
   Nat.digitChar (n / 1000 % 10), Nat.digitChar (n / 100 % 10),
   Nat.digitChar (n / 10 % 10), Nat.digitChar (n % 10)]

/-- Modelled from the spec: the calendar library's canonical year rendering —
zero-padded to four digits, full decimal digits beyond 9999, sign-prefixed when
negative. -/
def renderYear (y : Int) : List Char :=
  let a := y.natAbs
  let ds := if a < 10000 then pad4 a else Nat.toDigits 10 a
  if y < 0 then '-' :: ds else ds

/-- Modelled from the spec: `year_month_day` rendered as `YYYY-MM-DD`. -/
def renderYMD (y : Int) (m d : Nat) : List Char :=
  renderYear y ++ '-' :: (pad2 m ++ '-' :: pad2 d)

/-- Modelled from the spec: time-of-day remainder rendered as `HH:MM:SS.ffffff`. -/
def renderTOD (rem : Nat) : List Char :=
  pad2 (rem / MICROSECONDS_PER_HOUR) ++
    ':' :: (pad2 (rem % MICROSECONDS_PER_HOUR / MICROSECONDS_PER_MINUTE) ++
    ':' :: (pad2 (rem % MICROSECONDS_PER_MINUTE / MICROSECONDS_PER_SECOND) ++
    '.' :: pad6 (rem % MICROSECONDS_PER_SECOND)))

/-- `TimeConvertor::FormatDate` (lines 118-122): decode, then render the
`year_month_day` (rendering modelled from the spec). -/
def FormatDate (date : Nat) : String :=
  let c := PostgresJ2Date date
  String.mk (renderYMD c.1 c.2.1 c.2.2)

/-- `TimeConvertor::FormatTimestamp` (lines 125-133): decode the date part, compute
the time-of-day remainder `!timestamp - !date * MICROSECONDS_PER_DAY`, render as
date, space, `HH:MM:SS.ffffff`, no timezone suffix (stream rendering modelled from
the spec). -/
def FormatTimestamp (timestamp : Nat) : String :=
  let date := DateFromTimestamp timestamp
  let c := PostgresJ2Date date
  String.mk (renderYMD c.1 c.2.1 c.2.2 ++
    ' ' :: renderTOD (timestamp - date * MICROSECONDS_PER_DAY))

/-- Consume one expected literal character. -/
def lit (c : Char) (cs : List Char) : Option (List Char) :=
  match cs with
  | [] => none
  | x :: xs => if x = c then some xs else none

/-- Consume exactly two decimal digits. -/
def digits2 (cs : List Char) : Option (Nat × List Char) :=
  match cs with
  | c1 :: c2 :: rest =>
    match digitVal c1, digitVal c2 with
    | some a, some b => some (a * 10 + b, rest)
    | _, _ => none
  | _ => none

/-- Consume exactly four decimal digits. -/
def digits4 (cs : List Char) : Option (Nat × List Char) :=
  match cs with
  | c1 :: c2 :: c3 :: c4 :: rest =>
    match digitVal c1, digitVal c2, digitVal c3, digitVal c4 with
    | some a, some b, some c, some d => some (((a * 10 + b) * 10 + c) * 10 + d, rest)
    | _, _, _, _ => none
  | _ => none

/-- Read up to `k` further fraction digits, scaling the already-read value so that the
result is in microseconds (six implied places). -/
def fracLoop : Nat → List Char → Nat → Nat × List Char
  | 0, cs, acc => (acc, cs)
  | k + 1, cs, acc =>
    match cs with
    | [] => (acc * 10 ^ (k + 1), [])
    | c :: rest =>
      match digitVal c with
      | some v => fracLoop k rest (acc * 10 + v)
      | none => (acc * 10 ^ (k + 1), c :: rest)

/-- Modelled from the spec: the optional `.ffffff` fraction of `%T` — a dot followed
by one to six digits, scaled to microseconds; absent fraction reads as zero. -/
def readFrac (cs : List Char) : Nat × List Char :=
  match cs with
  | c :: c2 :: rest =>
    if c = '.' then
      match digitVal c2 with
      | some v => fracLoop 5 rest v
      | none => (0, c :: c2 :: rest)
    else (0, c :: c2 :: rest)
  | _ => (0, cs)

/-- Modelled from the spec: the `%T` grammar `HH:MM:SS[.ffffff]` with the
`CalendarTime` component ranges (hour 0-23, minute 0-59, second 0-59). -/
def readTime (cs : List Char) : Option ((Nat × Nat × Nat × Nat) × List Char) :=
  match digits2 cs with
  | none => none
  | some (h, cs) =>
    match lit ':' cs with
    | none => none
    | some cs =>
      match digits2 cs with
      | none => none
      | some (mi, cs) =>
        match lit ':' cs with
        | none => none
        | some cs =>
          match digits2 cs with
          | none => none
          | some (s, cs) =>
            let fu := readFrac cs
            if h ≤ 23 ∧ mi ≤ 59 ∧ s ≤ 59 then some ((h, mi, s, fu.1), fu.2) else none

/-- Modelled from the spec: the `%F` grammar `YYYY-MM-DD` with the `CalendarDate`
component ranges (month 1-12, day 1-31). -/
def readDateYMD (cs : List Char) : Option ((Nat × Nat × Nat) × List Char) :=
  match digits4 cs with
  | none => none
  | some (y, cs) =>
    match lit '-' cs with
    | none => none
    | some cs =>
      match digits2 cs with
      | none => none
      | some (m, cs) =>
        match lit '-' cs with
        | none => none
        | some cs =>
          match digits2 cs with
          | none => none
          | some (d, cs) =>
            if 1 ≤ m ∧ m ≤ 12 ∧ 1 ≤ d ∧ d ≤ 31 then some ((y, m, d), cs) else none

/-- Modelled from the spec: the `%z` grammar `±HHMM`, yielding the offset in minutes. -/
def readOffset (cs : List Char) : Option (Int × List Char) :=
  match cs with
  | [] => none
  | c :: rest =>
    if c = '+' then
      match digits2 rest with
      | none => none
      | some (h, cs) =>
        match digits2 cs with
        | none => none
        | some (mi, cs) => some (((h * 60 + mi : Nat) : Int), cs)
    else if c = '-' then
      match digits2 rest with
      | none => none
      | some (h, cs) =>
        match digits2 cs with
        | none => none
        | some (mi, cs) => some (-((h * 60 + mi : Nat) : Int), cs)
    else none

/-- Modelled from the spec: the absolute instant (microseconds since the Unix epoch)
of parsed components; the civil-to-days conversion of the calendar library is the
same Gregorian bijection as the codec, shifted by the Julian day of 1970-01-01
(2440588); a parsed numeric offset shifts the instant (local minus offset). -/
def tpOfParts (y m d h mi s u : Nat) (off : Int) : Int :=
  ((encS (y + 4800) m d : Int) - 2440588) * (MICROSECONDS_PER_DAY : Int)
    + ((h * MICROSECONDS_PER_HOUR + mi * MICROSECONDS_PER_MINUTE
        + s * MICROSECONDS_PER_SECOND + u : Nat) : Int)
    - off * (MICROSECONDS_PER_MINUTE : Int)

/-- Grammar 1: `%F %T%z` (`2020-01-01 11:11:11.123-0500`). -/
def tsG1 (cs : List Char) : Option Int :=
  match readDateYMD cs with
  | none => none
  | some ((y, m, d), cs) =>
    match lit ' ' cs with
    | none => none
    | some cs =>
      match readTime cs with
      | none => none
      | some ((h, mi, s, u), cs) =>
        match readOffset cs with
        | none => none
        | some (off, _) => some (tpOfParts y m d h mi s u off)

/-- Grammar 2: `%F %TZ` (`2020-01-01 11:11:11.123Z`). -/
def tsG2 (cs : List Char) : Option Int :=
  match readDateYMD cs with
  | none => none
  | some ((y, m, d), cs) =>
    match lit ' ' cs with
    | none => none
    | some cs =>
      match readTime cs with
      | none => none
      | some ((h, mi, s, u), cs) =>
        match lit 'Z' cs with
        | none => none
        | some _ => some (tpOfParts y m d h mi s u 0)

/-- Grammar 3: `%F %T` (`2020-01-01 11:11:11.123`). -/
def tsG3 (cs : List Char) : Option Int :=
  match readDateYMD cs with
  | none => none
  | some ((y, m, d), cs) =>
    match lit ' ' cs with
    | none => none
    | some cs =>
      match readTime cs with
      | none => none
      | some ((h, mi, s, u), _) => some (tpOfParts y m d h mi s u 0)

/-- Grammar 4: `%FT%T%z` (`2020-01-01T11:11:11.123-0500`). -/
def tsG4 (cs : List Char) : Option Int :=
  match readDateYMD cs with
  | none => none
  | some ((y, m, d), cs) =>
    match lit 'T' cs with
    | none => none
    | some cs =>
      match readTime cs with
      | none => none
      | some ((h, mi, s, u), cs) =>
        match readOffset cs with
        | none => none
        | some (off, _) => some (tpOfParts y m d h mi s u off)

/-- Grammar 5: `%FT%TZ` (`2020-01-01T11:11:11.123Z`). -/
def tsG5 (cs : List Char) : Option Int :=
  match readDateYMD cs with
  | none => none
  | some ((y, m, d), cs) =>
    match lit 'T' cs with
    | none => none
    | some cs =>
      match readTime cs with
      | none => none
      | some ((h, mi, s, u), cs) =>
        match lit 'Z' cs with
        | none => none
        | some _ => some (tpOfParts y m d h mi s u 0)

/-- Grammar 6: `%FT%T` (`2020-01-01T11:11:11.123`). -/
def tsG6 (cs : List Char) : Option Int :=
  match readDateYMD cs with
  | none => none
  | some ((y, m, d), cs) =>
    match lit 'T' cs with
    | none => none
    | some cs =>
      match readTime cs with
      | none => none
      | some ((h, mi, s, u), _) => some (tpOfParts y m d h mi s u 0)

/-- Grammar 7: `%F` (`2020-01-01`), date-only fallback. -/
def tsG7 (cs : List Char) : Option Int :=
  match readDateYMD cs with
  | none => none
  | some ((y, m, d), _) => some (tpOfParts y m d 0 0 0 0 0)

/-- The ordered grammar attempts of `ParseTimestamp` (lines 90-96), most restrictive
first, first match wins. -/
def tryTs (cs : List Char) : Option Int :=
  match tsG1 cs with
  | some tp => some tp
  | none =>
    match tsG2 cs with
    | some tp => some tp
    | none =>
      match tsG3 cs with
      | some tp => some tp
      | none =>
        match tsG4 cs with
        | some tp => some tp
        | none =>
          match tsG5 cs with
          | some tp => some tp
          | none =>
            match tsG6 cs with
            | some tp => some tp
            | none => tsG7 cs

/-- The post-parse computation of `ParseTimestamp` (lines 102-113): floor the instant
to days, convert to a calendar date, re-encode through the Julian codec, decompose the
time-of-day remainder, and sum in `uint64_t`. -/
def parseTsGlue (tp : Int) : Nat :=
  let dp := tp / (MICROSECONDS_PER_DAY : Int)
  let c := decS (dp + 2440588).toNat
  let julian := DateFromYMD ((c.1 : Int) - 4800) c.2.1 c.2.2
  let tod := (tp - dp * (MICROSECONDS_PER_DAY : Int)).toNat
  let h := tod / MICROSECONDS_PER_HOUR
  let mi := tod % MICROSECONDS_PER_HOUR / MICROSECONDS_PER_MINUTE
  let s := tod % MICROSECONDS_PER_MINUTE / MICROSECONDS_PER_SECOND
  let u := tod % MICROSECONDS_PER_SECOND
  (julian * MICROSECONDS_PER_DAY + h * MICROSECONDS_PER_HOUR + mi * MICROSECONDS_PER_MINUTE
    + s * MICROSECONDS_PER_SECOND + u) % 18446744073709551616

/-- `TimeConvertor::ParseTimestamp` (lines 84-115). -/
def ParseTimestamp (str : String) : Bool × Nat :=
  match tryTs str.data with
  | none => (false, 0)
  | some tp => (true, parseTsGlue tp)

/-- `TimeConvertor::ParseDate` (lines 63-77): single `%F` grammar, then floor to days
and re-encode through the codec. -/
def ParseDate (str : String) : Bool × Nat :=
  match readDateYMD str.data with
  | none => (false, 0)
  | some ((y, m, d), _) =>
    let tp := ((encS (y + 4800) m d : Int) - 2440588) * (MICROSECONDS_PER_DAY : Int)
    let dp := tp / (MICROSECONDS_PER_DAY : Int)
    let c := decS (dp + 2440588).toNat
    (true, DateFromYMD ((c.1 : Int) - 4800) c.2.1 c.2.2)

/-! ## Concrete parser/formatter claims (C2, C5, C6, C8, C10) -/

/-- **C2**: known reference values: `PostgresDate2J 2000 1 1 = 2451545` and
`FormatDate 2451545 = "2000-01-01"`. -/
theorem known_reference_values :
    PostgresDate2J 2000 1 1 = 2451545 ∧ FormatDate 2451545 = "2000-01-01" := by
  constructor
  · rfl
  · rfl

/-- **C5**: parse precedence: `"2020-01-01T11:11:11.123-0500"` fails grammars 1-3,
matches grammar 4 (`%FT%T%z`), hence does not fall through to the date-only
grammar 7; its value differs from the date-only parse of `"2020-01-01"`. -/
theorem parse_precedence :
    tsG1 "2020-01-01T11:11:11.123-0500".data = none ∧
    tsG2 "2020-01-01T11:11:11.123-0500".data = none ∧
    tsG3 "2020-01-01T11:11:11.123-0500".data = none ∧
    (tsG4 "2020-01-01T11:11:11.123-0500".data).isSome = true ∧
    ParseTimestamp "2020-01-01T11:11:11.123-0500" = (true, 212444698271123000) ∧
    ParseTimestamp "2020-01-01" = (true, 212444640000000000) ∧
    (212444698271123000 : Nat) ≠ 212444640000000000 := by
  refine ⟨rfl, rfl, rfl, rfl, rfl, rfl, by norm_num⟩

/-- **C6**: a parsed `Z` marker and an explicit `+0000` offset are equivalent: both
inputs succeed and yield the same `MicrosecondCount`. -/
theorem zulu_offset_equivalence :
    ParseTimestamp "2020-06-15T00:00:00Z" = (true, 212458982400000000) ∧
    ParseTimestamp "2020-06-15 00:00:00+0000" = (true, 212458982400000000) := by
  exact ⟨rfl, rfl⟩

/-- **C8**: malformed input is signalled by the boolean flag with placeholder zero;
`ParseDate` and `ParseTimestamp` are total functions (they never raise or panic). -/
theorem parse_failure_signalling :
    ParseDate "not-a-date" = (false, 0) ∧ ParseTimestamp "" = (false, 0) := by
  exact ⟨rfl, rfl⟩

/-- **C10**: the parser does not require the input to be fully consumed: a valid date
followed by trailing characters parses successfully with the same day count as the
valid prefix alone. -/
theorem trailing_garbage_accepted :
    ParseDate "2020-01-01garbage" = (true, 2458850) ∧
    ParseDate "2020-01-01" = (true, 2458850) := by
  exact ⟨rfl, rfl⟩

/-- **C7**: every `MicrosecondCount` produced by the system's own encoders has a
time-of-day remainder `r = v - v / MICROSECONDS_PER_DAY * MICROSECONDS_PER_DAY` with
`0 ≤ r < MICROSECONDS_PER_DAY` (in `Nat`, `0 ≤ r` is inherent). -/
theorem remainder_invariant :
    (∀ (year : Int) (month day hour minute sec usec : Nat),
      ValidDate year month day → hour ≤ 23 → minute ≤ 59 → sec ≤ 59 → usec ≤ 999999 →
      TimestampFromHMSu year month day hour minute sec usec -
        TimestampFromHMSu year month day hour minute sec usec / MICROSECONDS_PER_DAY
          * MICROSECONDS_PER_DAY < MICROSECONDS_PER_DAY) ∧
    (∀ (str : String) (v : Nat), ParseTimestamp str = (true, v) →
      v - v / MICROSECONDS_PER_DAY * MICROSECONDS_PER_DAY < MICROSECONDS_PER_DAY) := by
  have hmu : MICROSECONDS_PER_DAY = 86400000000 := by
    unfold MICROSECONDS_PER_DAY MICROSECONDS_PER_HOUR MICROSECONDS_PER_MINUTE
      MICROSECONDS_PER_SECOND
    norm_num
  constructor
  · intro year month day hour minute sec usec hvd hh hm hs hu
    rw [hmu]
    omega
  · intro str v hv
    rw [hmu]
    omega

/-- Witness for C7 at 2000-01-01 00:00:00.000000 and a concrete successful parse. -/
theorem remainder_invariant_witness :
    (TimestampFromHMSu 2000 1 1 23 59 59 999999 -
      TimestampFromHMSu 2000 1 1 23 59 59 999999 / MICROSECONDS_PER_DAY
        * MICROSECONDS_PER_DAY < MICROSECONDS_PER_DAY) ∧
    (212444640000000000 - 212444640000000000 / MICROSECONDS_PER_DAY
        * MICROSECONDS_PER_DAY < MICROSECONDS_PER_DAY) :=
  ⟨remainder_invariant.1 2000 1 1 23 59 59 999999
      (by unfold ValidDate daysInMonth; norm_num) (by norm_num) (by norm_num)
      (by norm_num) (by norm_num),
   remainder_invariant.2 "2020-01-01" 212444640000000000 rfl⟩

/-! ## Render/parse inverse lemmas (for C4) -/

theorem digitVal_digitChar : ∀ v ≤ 9, digitVal (Nat.digitChar v) = some v := by decide

theorem digitVal_digitChar_mod (x : Nat) : digitVal (Nat.digitChar (x % 10)) = some (x % 10) :=
  digitVal_digitChar (x % 10) (by omega)

theorem digits2_pad2 (n : Nat) (hn : n < 100) (rest : List Char) :
    digits2 (pad2 n ++ rest) = some (n, rest) := by
  simp only [pad2, List.cons_append, List.nil_append, digits2, digitVal_digitChar_mod,
    Option.some.injEq, Prod.mk.injEq, eq_self_iff_true, and_true]
  omega

theorem digits4_pad4 (n : Nat) (hn : n < 10000) (rest : List Char) :
    digits4 (pad4 n ++ rest) = some (n, rest) := by
  simp only [pad4, List.cons_append, List.nil_append, digits4, digitVal_digitChar_mod,
    Option.some.injEq, Prod.mk.injEq, eq_self_iff_true, and_true]
  omega

theorem readFrac_pad6 (u : Nat) (hu : u < 1000000) (rest : List Char) :
    readFrac ('.' :: (pad6 u ++ rest)) = (u, rest) := by
  simp only [pad6, List.cons_append, List.nil_append, readFrac, reduceIte,
    digitVal_digitChar_mod, fracLoop, Prod.mk.injEq, and_true]
  omega

theorem lit_cons (c : Char) (rest : List Char) : lit c (c :: rest) = some rest := by
  simp [lit]

theorem readFrac_pad6_nil (u : Nat) (hu : u < 1000000) :
    readFrac ('.' :: pad6 u) = (u, []) := by
  have := readFrac_pad6 u hu []
  simpa using this

theorem readTime_render (rem : Nat) (h : rem < 86400000000) :
    readTime (renderTOD rem) =
      some ((rem / MICROSECONDS_PER_HOUR,
        rem % MICROSECONDS_PER_HOUR / MICROSECONDS_PER_MINUTE,
        rem % MICROSECONDS_PER_MINUTE / MICROSECONDS_PER_SECOND,
        rem % MICROSECONDS_PER_SECOND), []) := by
  have hS : MICROSECONDS_PER_SECOND = 1000000 := rfl
  have hM : MICROSECONDS_PER_MINUTE = 60000000 := rfl
  have hH : MICROSECONDS_PER_HOUR = 3600000000 := rfl
  simp only [renderTOD, readTime, hS, hM, hH]
  rw [digits2_pad2 _ (by omega)]
  simp only
  rw [lit_cons]
  simp only
  rw [digits2_pad2 _ (by omega)]
  simp only
  rw [lit_cons]
  simp only
  rw [digits2_pad2 _ (by omega)]
  simp only
  rw [readFrac_pad6_nil _ (by omega)]
  rw [if_pos (by refine ⟨by omega, by omega, by omega⟩)]

theorem readDateYMD_render (y : Int) (m d : Nat) (hy : 0 ≤ y) (hy2 : y < 10000)
    (hm : 1 ≤ m) (hm2 : m ≤ 12) (hd : 1 ≤ d) (hd2 : d ≤ 31) (rest : List Char) :
    readDateYMD (renderYMD y m d ++ rest) = some ((y.toNat, m, d), rest) := by
  obtain ⟨n, rfl⟩ : ∃ n : Nat, y = (n : Int) := ⟨y.toNat, by omega⟩
  have hna : (n : Int).natAbs = n := Int.natAbs_ofNat n
  have htn : (n : Int).toNat = n := rfl
  simp only [renderYMD, renderYear, hna, htn]
  rw [if_pos (by omega : n < 10000), if_neg (by omega : ¬((n : Int) < 0))]
  simp only [readDateYMD, List.cons_append, List.append_assoc, List.nil_append]
  rw [digits4_pad4 _ (by omega)]
  simp only
  rw [lit_cons]
  simp only
  rw [digits2_pad2 _ (by omega)]
  simp only
  rw [lit_cons]
  simp only
  rw [digits2_pad2 _ (by omega)]
  simp only
  rw [if_pos (by refine ⟨hm, hm2, hd, hd2⟩)]

/-- On the rendered timestamp text, the first two grammars fail (no offset, no `Z`)
and the no-zone grammar 3 succeeds, consuming the whole text. -/
theorem tsRendered (y : Int) (m d rem : Nat) (hy : 0 ≤ y) (hy2 : y < 10000)
    (hm : 1 ≤ m) (hm2 : m ≤ 12) (hd : 1 ≤ d) (hd2 : d ≤ 31) (hrem : rem < 86400000000) :
    tsG1 (renderYMD y m d ++ ' ' :: renderTOD rem) = none ∧
    tsG2 (renderYMD y m d ++ ' ' :: renderTOD rem) = none ∧
    tsG3 (renderYMD y m d ++ ' ' :: renderTOD rem) =
      some (tpOfParts y.toNat m d (rem / MICROSECONDS_PER_HOUR)
        (rem % MICROSECONDS_PER_HOUR / MICROSECONDS_PER_MINUTE)
        (rem % MICROSECONDS_PER_MINUTE / MICROSECONDS_PER_SECOND)
        (rem % MICROSECONDS_PER_SECOND) 0) := by
  refine ⟨?_, ?_, ?_⟩
  · simp only [tsG1]
    rw [readDateYMD_render y m d hy hy2 hm hm2 hd hd2]
    simp only
    rw [lit_cons]
    simp only
    rw [readTime_render rem hrem]
    rfl
  · simp only [tsG2]
    rw [readDateYMD_render y m d hy hy2 hm hm2 hd hd2]
    simp only
    rw [lit_cons]
    simp only
    rw [readTime_render rem hrem]
    rfl
  · simp only [tsG3]
    rw [readDateYMD_render y m d hy hy2 hm hm2 hd hd2]
    simp only
    rw [lit_cons]
    simp only
    rw [readTime_render rem hrem]

/-- On day counts whose dates fall in years 0000-9999 (4-digit rendering), the decoded
shifted year lies in `[4800, 14799]`. -/
theorem tsWindow (j : Nat) (hlo : 1721060 ≤ j) (hhi : j ≤ 5373484) :
    4800 ≤ (decS j).1 ∧ (decS j).1 ≤ 14799 := by
  obtain ⟨Y, D, hV, hN⟩ := surj (j + 32044) (by omega)
  have hDle : D ≤ 365 := by unfold ValidD at hV; omega
  have hY : Y ≤ 5879698 := by unfold NYD at hN; omega
  have hjj : j = NYD Y D - 32044 := by omega
  rw [hjj, cascade Y D hY (by omega) hV]
  simp only
  constructor
  · split
    · by_contra hc
      unfold NYD at hN
      omega
    · by_contra hc
      rcases (by omega : Y = 4799 ∨ Y ≤ 4798) with rfl | hY8
      · unfold NYD at hN; omega
      · unfold NYD at hN; omega
  · split
    · rename_i h306
      by_contra hc
      rcases (by omega : Y = 14799 ∨ 14800 ≤ Y) with rfl | hY8
      · unfold NYD at hN; omega
      · unfold NYD at hN; omega
    · by_contra hc
      unfold NYD at hN
      omega

/-- The glue computation of `ParseTimestamp` recovers `j * MICROSECONDS_PER_DAY + rem`
from the instant produced by the no-zone grammar on the rendered components. -/
theorem glue_correct (j rem : Nat) (hlo : 1721060 ≤ j) (hhi : j ≤ 5373484)
    (hrem : rem < 86400000000) :
    parseTsGlue (tpOfParts ((decS j).1 - 4800) (decS j).2.1 (decS j).2.2
      (rem / MICROSECONDS_PER_HOUR) (rem % MICROSECONDS_PER_HOUR / MICROSECONDS_PER_MINUTE)
      (rem % MICROSECONDS_PER_MINUTE / MICROSECONDS_PER_SECOND)
      (rem % MICROSECONDS_PER_SECOND) 0) = j * 86400000000 + rem := by
  have hw := tsWindow j hlo hhi
  have hS : MICROSECONDS_PER_SECOND = 1000000 := rfl
  have hM : MICROSECONDS_PER_MINUTE = 60000000 := rfl
  have hH : MICROSECONDS_PER_HOUR = 3600000000 := rfl
  have hDmu : MICROSECONDS_PER_DAY = 86400000000 := rfl
  have henc : encS ((decS j).1 - 4800 + 4800) (decS j).2.1 (decS j).2.2 = j := by
    rw [show (decS j).1 - 4800 + 4800 = (decS j).1 by omega]
    exact dir2S j (by omega)
  have htpe : tpOfParts ((decS j).1 - 4800) (decS j).2.1 (decS j).2.2
      (rem / MICROSECONDS_PER_HOUR) (rem % MICROSECONDS_PER_HOUR / MICROSECONDS_PER_MINUTE)
      (rem % MICROSECONDS_PER_MINUTE / MICROSECONDS_PER_SECOND)
      (rem % MICROSECONDS_PER_SECOND) 0
      = (j : Int) * 86400000000 + (rem : Int) - 2440588 * 86400000000 := by
    simp only [tpOfParts, hS, hM, hH, hDmu, henc]
    omega
  clear henc hw
  have hdiv : ((j : Int) * 86400000000 + (rem : Int) - 2440588 * 86400000000) / 86400000000
      = (j : Int) - 2440588 := by
    clear htpe hS hM hH hDmu hlo hhi
    omega
  have htn1 : ((j : Int) - 2440588 + 2440588).toNat = j := by
    clear htpe hS hM hH hDmu hlo hhi hdiv hrem
    omega
  have htod : ((j : Int) * 86400000000 + (rem : Int) - 2440588 * 86400000000
      - ((j : Int) - 2440588) * 86400000000).toNat = rem := by
    clear htpe hS hM hH hDmu hlo hhi hdiv htn1
    have hq : ((j : Int) - 2440588) * 86400000000
        = (j : Int) * 86400000000 - 2440588 * 86400000000 := by ring
    omega
  rw [htpe]
  clear htpe
  simp only [parseTsGlue, hS, hM, hH, hDmu, Nat.cast_ofNat]
  rw [hdiv, htn1, htod]
  clear hdiv htn1 htod
  simp only [DateFromYMD]
  rw [decodeEncode j (by omega)]
  clear hS hM hH hDmu
  omega

/-- Counterexample to **C4** as stated: at the largest 64-bit `MicrosecondCount` the
decoded year has six digits, the rendered text does not match any parse grammar, and
the round trip fails. -/
theorem format_parse_cex :
    ParseTimestamp (FormatTimestamp 18446744073709551615)
      ≠ (true, 18446744073709551615) := by decide

/-- **C4** (amended): `ParseTimestamp (FormatTimestamp t)` returns `(true, t)` for
every 64-bit `MicrosecondCount` whose date part renders with four year digits, i.e.
whose day count `t / MICROSECONDS_PER_DAY` lies in `[1721060, 5373484]`
(years 0000-9999). -/
theorem format_parse_roundtrip (t : Nat) (ht : t < 18446744073709551616)
    (hlo : 1721060 ≤ t / MICROSECONDS_PER_DAY) (hhi : t / MICROSECONDS_PER_DAY ≤ 5373484) :
    ParseTimestamp (FormatTimestamp t) = (true, t) := by
  have hDmu : MICROSECONDS_PER_DAY = 86400000000 := rfl
  rw [hDmu] at hlo hhi
  obtain ⟨j, rem, hrem, ht_eq⟩ : ∃ j rem, rem < 86400000000 ∧ t = j * 86400000000 + rem :=
    ⟨t / 86400000000, t % 86400000000, by omega, by omega⟩
  subst ht_eq
  have hj_lo : 1721060 ≤ j := by
    clear ht hhi
    omega
  have hj_hi : j ≤ 5373484 := by
    clear ht hlo
    omega
  clear hlo hhi ht
  have hw := tsWindow j hj_lo hj_hi
  have hdom := decS_dom j (by clear hw; omega)
  have hj32 : j ≤ 2147483493 := by clear hw hdom; omega
  have hdate : DateFromTimestamp (j * 86400000000 + rem) = j := by
    clear hw hdom hj32
    simp only [DateFromTimestamp, hDmu]
    omega
  have hsub : j * 86400000000 + rem - j * 86400000000 = rem := by
    clear hw hdom hj32 hdate hj_lo hj_hi hrem
    omega
  have hfmt : FormatTimestamp (j * 86400000000 + rem)
      = String.mk (renderYMD (((decS j).1 : Int) - 4800) (decS j).2.1 (decS j).2.2
          ++ ' ' :: renderTOD rem) := by
    simp only [FormatTimestamp, hdate, bridgeDec j hj32, hDmu, hsub]
  rw [hfmt]
  clear hfmt hdate hsub
  have hy0 : (0 : Int) ≤ ((decS j).1 : Int) - 4800 := by
    clear hdom hj32
    omega
  have hy4 : ((decS j).1 : Int) - 4800 < 10000 := by
    clear hdom hj32
    omega
  obtain ⟨hg1, hg2, hg3⟩ := tsRendered (((decS j).1 : Int) - 4800) (decS j).2.1 (decS j).2.2
    rem hy0 hy4 hdom.2.2.1 hdom.2.2.2.1 hdom.2.2.2.2.1 hdom.2.2.2.2.2 hrem
  simp only [ParseTimestamp, tryTs, hg1, hg2, hg3]
  have htn : (((decS j).1 : Int) - 4800).toNat = (decS j).1 - 4800 := by
    clear hdom hj32 hg1 hg2 hg3 hy0 hy4
    omega
  rw [htn, glue_correct j rem hj_lo hj_hi hrem]

/-- Witness for the amended C4 at the timestamp 2020-01-01 11:11:11.123000. -/
theorem format_parse_roundtrip_witness :
    (212444698271123000 : Nat) < 18446744073709551616 ∧
    1721060 ≤ 212444698271123000 / MICROSECONDS_PER_DAY ∧
    212444698271123000 / MICROSECONDS_PER_DAY ≤ 5373484 ∧
    ParseTimestamp (FormatTimestamp 212444698271123000) = (true, 212444698271123000) :=
  ⟨by decide, by decide, by decide,
    format_parse_roundtrip 212444698271123000 (by decide) (by decide) (by decide)⟩
